import Mathlib

/-!
Shallow embedding of the IRIS model backend
(`src/model_backend/backend.py` and `src/model_backend/app/main.py`)
and proofs of the specification claims about it.

Embeddings (feature vectors) are lists of rationals: exact arithmetic
standing in for the float arrays of the source.  `cosineSim` is the
similarity the code computes via `sklearn.metrics.pairwise.cosine_similarity`
(whose `normalize` step replaces a zero row norm by 1), `cosineSimSpec` is
the unguarded textbook formula written in the spec, and `argmaxSim` is
`numpy.argmax` over the similarity row: the first occurrence of the maximum.
The comparator `simGt` decides the real-valued similarity ordering exactly
over the rational data; the bridge lemma `simGt_iff` proves it agrees with
`cosineSim`.
-/

namespace Iris

/-- A feature vector (an embedding), exact-rational stand-in for a float array. -/
abbrev Vec := List ℚ

/-- Dot product of two vectors, as `numpy` computes it inside
`sklearn.metrics.pairwise.cosine_similarity`. -/
def dotQ (u v : Vec) : ℚ := (List.zipWith (fun a b => a * b) u v).sum

/-- Squared Euclidean norm of a vector. -/
def sqNorm (v : Vec) : ℚ := dotQ v v

/-- Squared effective norm after the zero guard of sklearn `normalize`:
a row whose norm is zero is divided by 1 instead of its norm. -/
def gSq (v : Vec) : ℚ := if sqNorm v = 0 then 1 else sqNorm v

/-- Scalar multiple of a vector. -/
def smulQ (c : ℚ) (v : Vec) : Vec := v.map (fun a => c * a)

/-- Exact decision of the strict ordering `cosineSim q v < cosineSim q u`
on the rational data, by cross-multiplying the two similarity fractions and
comparing signs and squares (the common positive factor coming from the
query norm cancels).  The bridge lemma `simGt_iff` below proves this equals
the real-valued comparison performed on the sklearn similarity row. -/
def simGt (q u v : Vec) : Bool :=
  if 0 < dotQ q u then
    if dotQ q v ≤ 0 then true
    else decide (dotQ q v ^ 2 * gSq u < dotQ q u ^ 2 * gSq v)
  else if dotQ q u = 0 then decide (dotQ q v < 0)
  else if 0 ≤ dotQ q v then false
  else decide (dotQ q u ^ 2 * gSq v < dotQ q v ^ 2 * gSq u)

/-- Scan step of `numpy.argmax` over the similarity row: walk the remaining
support embeddings keeping the index and embedding of the current best, and
update only on a strictly larger similarity, so the first occurrence of the
maximum wins. -/
def argmaxAux (q : Vec) : List Vec → Nat × Vec → Nat → Nat × Vec
  | [], best, _ => best
  | s :: rest, best, k =>
      argmaxAux q rest (if simGt q s best.2 then (k, s) else best) (k + 1)

/-- Index of the maximal cosine similarity against the support embeddings
(`similarities.argmax()` in `backend.py`), ties broken by the lowest index.
`numpy.argmax` raises on an empty array; the handler matches on the support
list before calling this, so the `[]` branch is never reached from `predict`. -/
def argmaxSim (q : Vec) (S : List Vec) : Nat :=
  match S with
  | [] => 0
  | s :: rest => (argmaxAux q rest (0, s) 1).1

/-- Guarded Euclidean norm as a real number: sklearn `normalize` divides a
row by its norm, unless the norm is zero, in which case by 1. -/
noncomputable def gnormR (v : Vec) : ℝ :=
  if sqNorm v = 0 then 1 else Real.sqrt ((sqNorm v : ℝ))

/-- Cosine similarity exactly as `sklearn.metrics.pairwise.cosine_similarity`
computes an entry of its output row: the dot product of the two rows, each
divided by its guarded norm. -/
noncomputable def cosineSim (q s : Vec) : ℝ := (dotQ q s : ℝ) / (gnormR q * gnormR s)

/-- The textbook cosine-similarity formula as the spec writes it:
sim(q, s) = (q . s) / (norm q * norm s), with no zero guard. -/
noncomputable def cosineSimSpec (q s : Vec) : ℝ :=
  (dotQ q s : ℝ) / (Real.sqrt ((sqNorm q : ℝ)) * Real.sqrt ((sqNorm s : ℝ)))

/-- Modelled from the spec: the decoded RGB image that PIL produces from the
upload bytes (`Image.open(io.BytesIO(image_bytes)).convert('RGB')`).  The
decoder is an external library, not part of this repository; the spec fixes
only that decoding yields a pixel grid in a fixed 3-channel representation. -/
structure ImageRGB where
  width : Nat
  height : Nat
  channels : List Nat
deriving DecidableEq

/-- Modelled from the spec: PIL image decoding, which is external to this
repository.  Bytes that are not a valid image fail to decode (the spec names
the empty payload as malformed); a valid payload carries its dimensions and
exactly width * height pixels of 3 channels each. -/
def decodeImage : List Nat → Option ImageRGB
  | w :: h :: data =>
      if 0 < w ∧ 0 < h ∧ data.length = w * h * 3 then some ⟨w, h, data⟩ else none
  | _ => none

/-- Modelled from the spec: `transforms.Resize((224, 224))` resizes to the
fixed square resolution; the exact interpolation kernel of torchvision is
external to this repository, modelled here as deterministic nearest-neighbor
sampling over the flat height-major, 3-channels-per-pixel layout. -/
def resize224 (img : ImageRGB) : ImageRGB :=
  ⟨224, 224,
    (List.range (224 * 224 * 3)).map (fun i =>
      let y := i / (224 * 3)
      let rem := i % (224 * 3)
      let x := rem / 3
      let c := rem % 3
      img.channels.getD (((y * img.height / 224) * img.width + x * img.width / 224) * 3 + c) 0)⟩

/-- Modelled from the spec: `transforms.ToTensor()` scales the 8-bit channel
values into numbers in [0, 1] by dividing by 255, producing the numeric
input format the encoder expects. -/
def toTensor (img : ImageRGB) : List ℚ := img.channels.map (fun b => (b : ℚ) / 255)

/-- The preprocessing pipeline of `backend.py`:
`transform = transforms.Compose([transforms.Resize((224, 224)), transforms.ToTensor()])`. -/
def transform (img : ImageRGB) : List ℚ := toTensor (resize224 img)

/-- The process-wide state loaded at startup by `backend.py`: the traced
DenseNet encoder (a black box from the preprocessed tensor to an embedding),
the support embeddings from `support_embeddings.pt`, and the label list. -/
structure ServerState where
  model : List ℚ → Vec
  support_embeddings : List Vec
  support_labels : List String

/-- The label list hardcoded in `backend.py`. -/
def backendLabels : List String :=
  ["cataract", "healthy", "pterygium", "glaucoma", "keratoconus", "strabismus",
   "pink_eye", "stye", "trachoma", "uveitis"]

/-- The JSON payload `backend.py` returns on success. -/
structure PredictResponse where
  predicted_class_id : Nat
  predicted_class_label : String
deriving DecidableEq

/-- Python exceptions that can escape the `/predict/` handlers: a PIL decode
failure (`UnidentifiedImageError`), `numpy.argmax` raising on an empty
support array, an out-of-range `support_labels[...]` access (`IndexError`),
and the `NameError` Python raises when an unassigned name is evaluated. -/
inductive PyError where
  | unidentifiedImage : PyError
  | emptyArgmax : PyError
  | indexError : PyError
  | nameError : String → PyError
deriving DecidableEq

namespace Backend

/-- The `/predict/` handler of `backend.py`, with the process state threaded
explicitly: read the upload bytes, decode them (there is no try/except in the
handler, so a decode failure escapes as the exception), preprocess, run the
encoder, compute the cosine-similarity row against every support embedding
and take its argmax, then index the label list.  The handler never assigns
any global, so it returns the state it was given. -/
def predict (st : ServerState) (image_bytes : List Nat) :
    Except PyError PredictResponse × ServerState :=
  match decodeImage image_bytes with
  | none => (Except.error PyError.unidentifiedImage, st)
  | some image =>
      let input_tensor := transform image
      let predicted_embedding := st.model input_tensor
      match st.support_embeddings with
      | [] => (Except.error PyError.emptyArgmax, st)
      | s :: rest =>
          let predicted_class_id := argmaxSim predicted_embedding (s :: rest)
          match st.support_labels.get? predicted_class_id with
          | none => (Except.error PyError.indexError, st)
          | some lbl => (Except.ok ⟨predicted_class_id, lbl⟩, st)

end Backend

namespace AppMain

/-- One entry of a recommendation list in `app/main.py`. -/
structure RecommendationEntry where
  recommendation : String
  priority : Nat
deriving DecidableEq

/-- Severity helper of `app/main.py`: a stub constant. -/
def calculate_severity (_features : Vec) (_class_idx : Nat) : String := "moderate"

/-- The static diagnosis table of `app/main.py` (entries for keys 0 and 1 only). -/
def diagnoses : List (Nat × String) :=
  [(0, "Cataract detected. This is characterized by clouding of the eye\x27s lens..."),
   (1, "Healthy eye. No significant issues detected...")]

/-- Diagnosis lookup of `app/main.py`: `diagnoses.get(class_idx, "Unknown condition")`. -/
def get_diagnosis_text (class_idx : Nat) : String :=
  (diagnoses.lookup class_idx).getD "Unknown condition"

/-- The static recommendation table of `app/main.py` (an entry for key 0 only). -/
def recommendations : List (Nat × List RecommendationEntry) :=
  [(0, [⟨"Schedule an appointment with an ophthalmologist", 1⟩,
        ⟨"Avoid driving at night", 2⟩])]

/-- Recommendation lookup of `app/main.py`: `recommendations.get(class_idx, [])`. -/
def get_recommendations (class_idx : Nat) : List RecommendationEntry :=
  (recommendations.lookup class_idx).getD []

/-- The rich response payload `app/main.py` would assemble. -/
structure AppPrediction where
  classId : Nat
  className : String
  confidence : ℚ
  severity : String
  diagnosis : String
  recommendationList : List RecommendationEntry
deriving DecidableEq

/-- The `/predict/` handler of `app/main.py`: it reads and decodes the upload
(uncaught on failure), then evaluates `model(image_tensor)` — but
`image_tensor` is never assigned anywhere in the function (the preprocessing
is an elided comment), so Python raises `NameError` at that point, and the
response construction below it (which also references the unassigned
`similarity` and `best_class_idx`) is never reached. -/
def predict (image_data : List Nat) : Except PyError AppPrediction :=
  match decodeImage image_data with
  | none => Except.error PyError.unidentifiedImage
  | some _image => Except.error (PyError.nameError "image_tensor")

end AppMain

/-! Basic algebra of the rational dot product. -/

theorem dotQ_nil_left (v : Vec) : dotQ [] v = 0 := by
  simp [dotQ]

theorem dotQ_nil_right (u : Vec) : dotQ u [] = 0 := by
  simp [dotQ]

theorem dotQ_cons (a b : ℚ) (u v : Vec) :
    dotQ (a :: u) (b :: v) = a * b + dotQ u v := by
  simp [dotQ]

theorem sqNorm_nil : sqNorm ([] : Vec) = 0 := by
  simp [sqNorm, dotQ]

theorem sqNorm_cons (a : ℚ) (v : Vec) :
    sqNorm (a :: v) = a * a + sqNorm v := by
  simp [sqNorm, dotQ_cons]

theorem sqNorm_nonneg (v : Vec) : 0 ≤ sqNorm v := by
  induction v with
  | nil => simp [sqNorm_nil]
  | cons a t ih =>
      rw [sqNorm_cons]
      nlinarith [mul_self_nonneg a]

theorem dotQ_comm (u v : Vec) : dotQ u v = dotQ v u := by
  induction u generalizing v with
  | nil => cases v <;> simp [dotQ]
  | cons a t ih =>
      cases v with
      | nil => simp [dotQ]
      | cons b s => rw [dotQ_cons, dotQ_cons, ih, mul_comm]

theorem dotQ_eq_zero_of_sqNorm_eq_zero {q : Vec} (hq : sqNorm q = 0) (v : Vec) :
    dotQ q v = 0 := by
  induction q generalizing v with
  | nil => simp [dotQ]
  | cons a t ih =>
      rw [sqNorm_cons] at hq
      have ha : a * a = 0 := by
        nlinarith [mul_self_nonneg a, sqNorm_nonneg t]
      have ht : sqNorm t = 0 := by nlinarith [mul_self_nonneg a]
      have ha0 : a = 0 := by
        have := mul_self_eq_zero.mp ha
        exact this
      cases v with
      | nil => simp [dotQ]
      | cons b s => rw [dotQ_cons, ih ht s, ha0]; ring

theorem dotQ_smul_right (c : ℚ) (u v : Vec) :
    dotQ u (smulQ c v) = c * dotQ u v := by
  induction u generalizing v with
  | nil => simp [dotQ]
  | cons a t ih =>
      cases v with
      | nil => simp [dotQ, smulQ]
      | cons b s =>
          simp only [smulQ, List.map_cons, dotQ_cons]
          rw [show List.map (fun a => c * a) s = smulQ c s from rfl, ih]
          ring

theorem sqNorm_smul (c : ℚ) (v : Vec) :
    sqNorm (smulQ c v) = c ^ 2 * sqNorm v := by
  induction v with
  | nil => simp [smulQ, sqNorm_nil]
  | cons b s ih =>
      simp only [smulQ, List.map_cons]
      rw [show (c * b :: List.map (fun a => c * a) s : Vec) =
            c * b :: smulQ c s from rfl]
      rw [sqNorm_cons, sqNorm_cons, ih]
      ring

/-- Cauchy-Schwarz for the rational dot product, proved by induction. -/
theorem dotQ_sq_le (u v : Vec) : dotQ u v ^ 2 ≤ sqNorm u * sqNorm v := by
  induction u generalizing v with
  | nil => simp [dotQ, sqNorm_nil]
  | cons a t ih =>
      cases v with
      | nil => simp [dotQ, sqNorm_nil, mul_nonneg (sqNorm_nonneg _) (le_refl 0)]
      | cons b s =>
          rw [dotQ_cons, sqNorm_cons, sqNorm_cons]
          have h := ih s
          have hP := sqNorm_nonneg t
          have hQ := sqNorm_nonneg s
          rcases eq_or_lt_of_le hP with hP0 | hPpos
          · have hd : dotQ t s = 0 := by
              have h2 : dotQ t s ^ 2 ≤ 0 := by
                calc dotQ t s ^ 2 ≤ sqNorm t * sqNorm s := h
                _ = 0 := by rw [← hP0]; ring
              have h3 : dotQ t s ^ 2 = 0 := le_antisymm h2 (sq_nonneg _)
              exact pow_eq_zero_iff two_ne_zero |>.mp h3
            rw [hd, ← hP0]
            nlinarith [mul_nonneg (sq_nonneg a) hQ]
          · nlinarith [sq_nonneg (a * dotQ t s - b * sqNorm t),
              mul_nonneg (sq_nonneg a) (sub_nonneg.mpr h),
              mul_nonneg (le_of_lt hPpos) (sub_nonneg.mpr h)]

theorem gSq_pos (v : Vec) : 0 < gSq v := by
  unfold gSq
  split
  · exact one_pos
  · exact lt_of_le_of_ne (sqNorm_nonneg v) (Ne.symm (by assumption))

theorem gnormR_pos (v : Vec) : 0 < gnormR v := by
  unfold gnormR
  split
  · exact one_pos
  · refine Real.sqrt_pos.mpr ?_
    have h0 := sqNorm_nonneg v
    have hne : sqNorm v ≠ 0 := by assumption
    have : (0 : ℚ) < sqNorm v := lt_of_le_of_ne h0 (Ne.symm hne)
    exact_mod_cast this

theorem gnormR_sq (v : Vec) : gnormR v ^ 2 = ((gSq v : ℚ) : ℝ) := by
  unfold gnormR gSq
  split
  · norm_num
  · rw [Real.sq_sqrt]
    have h0 := sqNorm_nonneg v
    exact_mod_cast h0

/-! The bridge between the computable comparator and the real-valued
cosine similarity of the sklearn routine. -/

theorem cosineSim_lt_iff (q u v : Vec) :
    cosineSim q v < cosineSim q u ↔
      (dotQ q v : ℝ) * gnormR u < (dotQ q u : ℝ) * gnormR v := by
  unfold cosineSim
  rw [div_lt_div_iff₀ (mul_pos (gnormR_pos q) (gnormR_pos v))
    (mul_pos (gnormR_pos q) (gnormR_pos u))]
  rw [show (dotQ q v : ℝ) * (gnormR q * gnormR u) =
        gnormR q * ((dotQ q v : ℝ) * gnormR u) by ring]
  rw [show (dotQ q u : ℝ) * (gnormR q * gnormR v) =
        gnormR q * ((dotQ q u : ℝ) * gnormR v) by ring]
  exact mul_lt_mul_left (gnormR_pos q)

/-- The comparator `simGt` decides exactly the strict ordering of the
sklearn cosine similarities. -/
theorem simGt_iff (q u v : Vec) :
    simGt q u v = true ↔ cosineSim q v < cosineSim q u := by
  rw [cosineSim_lt_iff]
  have hBu := gnormR_pos u
  have hBv := gnormR_pos v
  have hBu2 := gnormR_sq u
  have hBv2 := gnormR_sq v
  unfold simGt
  split_ifs with h1 h2 h3 h4
  · -- 0 < d1, d2 ≤ 0
    have e1 : (0 : ℝ) < (dotQ q u : ℝ) := by exact_mod_cast h1
    have e2 : (dotQ q v : ℝ) ≤ 0 := by exact_mod_cast h2
    simp only [true_iff]
    have hl : (dotQ q v : ℝ) * gnormR u ≤ 0 := mul_nonpos_of_nonpos_of_nonneg e2 hBu.le
    have hr : (0 : ℝ) < (dotQ q u : ℝ) * gnormR v := mul_pos e1 hBv
    linarith
  · -- 0 < d1, 0 < d2
    have e1 : (0 : ℝ) < (dotQ q u : ℝ) := by exact_mod_cast h1
    have e2 : (0 : ℝ) < (dotQ q v : ℝ) := by exact_mod_cast (not_le.mp h2)
    simp only [decide_eq_true_eq]
    rw [show ((dotQ q v) ^ 2 * gSq u < (dotQ q u) ^ 2 * gSq v) ↔
          ((dotQ q v : ℝ) ^ 2 * ((gSq u : ℚ) : ℝ) < (dotQ q u : ℝ) ^ 2 * ((gSq v : ℚ) : ℝ))
        by constructor <;> intro hh <;> exact_mod_cast hh]
    rw [← hBu2, ← hBv2, ← mul_pow, ← mul_pow]
    exact pow_lt_pow_iff_left₀ (mul_nonneg e2.le hBu.le) (mul_nonneg e1.le hBv.le) two_ne_zero
  · -- d1 = 0
    have e1 : (dotQ q u : ℝ) = 0 := by exact_mod_cast h3
    simp only [decide_eq_true_eq]
    rw [e1, zero_mul]
    constructor
    · intro hh
      have e2 : (dotQ q v : ℝ) < 0 := by exact_mod_cast hh
      exact mul_neg_of_neg_of_pos e2 hBu
    · intro hh
      by_contra hcon
      have e2 : (0 : ℝ) ≤ (dotQ q v : ℝ) := by exact_mod_cast not_lt.mp hcon
      have := mul_nonneg e2 hBu.le
      linarith
  · -- d1 < 0, 0 ≤ d2
    have e1 : (dotQ q u : ℝ) < 0 := by
      have : dotQ q u < 0 := lt_of_le_of_ne (not_lt.mp h1) h3
      exact_mod_cast this
    have e2 : (0 : ℝ) ≤ (dotQ q v : ℝ) := by exact_mod_cast h4
    simp only [false_iff, not_lt]
    have hl : (dotQ q u : ℝ) * gnormR v < 0 := mul_neg_of_neg_of_pos e1 hBv
    have hr : (0 : ℝ) ≤ (dotQ q v : ℝ) * gnormR u := mul_nonneg e2 hBu.le
    linarith
  · -- d1 < 0, d2 < 0
    have e1 : (dotQ q u : ℝ) < 0 := by
      have : dotQ q u < 0 := lt_of_le_of_ne (not_lt.mp h1) h3
      exact_mod_cast this
    have e2 : (dotQ q v : ℝ) < 0 := by exact_mod_cast not_le.mp h4
    simp only [decide_eq_true_eq]
    rw [show ((dotQ q u) ^ 2 * gSq v < (dotQ q v) ^ 2 * gSq u) ↔
          ((dotQ q u : ℝ) ^ 2 * ((gSq v : ℚ) : ℝ) < (dotQ q v : ℝ) ^ 2 * ((gSq u : ℚ) : ℝ))
        by constructor <;> intro hh <;> exact_mod_cast hh]
    rw [← hBu2, ← hBv2]
    constructor
    · intro hh
      have hvneg : (dotQ q v : ℝ) * gnormR u < 0 := mul_neg_of_neg_of_pos e2 hBu
      have huneg : (dotQ q u : ℝ) * gnormR v < 0 := mul_neg_of_neg_of_pos e1 hBv
      nlinarith [hh, hvneg, huneg]
    · intro hh
      have hvneg : (dotQ q v : ℝ) * gnormR u < 0 := mul_neg_of_neg_of_pos e2 hBu
      have huneg : (dotQ q u : ℝ) * gnormR v < 0 := mul_neg_of_neg_of_pos e1 hBv
      nlinarith [hh, hvneg, huneg]

/-! Correctness of the argmax scan: the returned index is in range, carries a
maximal similarity, and is the first occurrence of the maximum. -/

theorem argmaxAux_spec (q : Vec) :
    ∀ (L front : List Vec) (b : Nat) (bv : Vec),
      b < front.length →
      front.getD b [] = bv →
      (∀ j, j < front.length → cosineSim q (front.getD j []) ≤ cosineSim q bv) →
      (∀ j, j < b → cosineSim q (front.getD j []) < cosineSim q bv) →
      (argmaxAux q L (b, bv) front.length).1 < (front ++ L).length ∧
      (front ++ L).getD (argmaxAux q L (b, bv) front.length).1 [] =
        (argmaxAux q L (b, bv) front.length).2 ∧
      (∀ j, j < (front ++ L).length →
        cosineSim q ((front ++ L).getD j []) ≤
          cosineSim q (argmaxAux q L (b, bv) front.length).2) ∧
      (∀ j, j < (argmaxAux q L (b, bv) front.length).1 →
        cosineSim q ((front ++ L).getD j []) <
          cosineSim q (argmaxAux q L (b, bv) front.length).2) := by
  intro L
  induction L with
  | nil =>
      intro front b bv hb hbv hmax hfirst
      simp only [argmaxAux, List.append_nil]
      exact ⟨hb, hbv, hmax, hfirst⟩
  | cons s L ih =>
      intro front b bv hb hbv hmax hfirst
      have hlen1 : (front ++ [s]).length = front.length + 1 := by simp
      have hassoc : (front ++ [s]) ++ L = front ++ s :: L := by
        rw [List.append_assoc, List.singleton_append]
      by_cases hgt : simGt q s bv = true
      · have hlt : cosineSim q bv < cosineSim q s := (simGt_iff q s bv).mp hgt
        have h1 : argmaxAux q (s :: L) (b, bv) front.length =
            argmaxAux q L (front.length, s) (front.length + 1) := by
          simp [argmaxAux, hgt]
        rw [h1, ← hlen1]
        have hres := ih (front ++ [s]) front.length s
          (by rw [hlen1]; exact Nat.lt_succ_self _)
          (by rw [List.getD_append_right front [s] [] front.length (le_refl _)]; simp)
          (by
            intro j hj
            rw [hlen1] at hj
            rcases Nat.lt_succ_iff_lt_or_eq.mp hj with hj' | hj'
            · rw [List.getD_append front [s] [] j hj']
              exact le_of_lt (lt_of_le_of_lt (hmax j hj') hlt)
            · rw [hj', List.getD_append_right front [s] [] front.length (le_refl _)]
              simp)
          (by
            intro j hj
            rw [List.getD_append front [s] [] j hj]
            exact lt_of_le_of_lt (hmax j hj) hlt)
        rw [hassoc] at hres
        exact hres
      · have hle : cosineSim q s ≤ cosineSim q bv := by
          have := (simGt_iff q s bv).not.mp (by simp [hgt])
          exact not_lt.mp this
        have h1 : argmaxAux q (s :: L) (b, bv) front.length =
            argmaxAux q L (b, bv) (front.length + 1) := by
          simp [argmaxAux, hgt]
        rw [h1, ← hlen1]
        have hres := ih (front ++ [s]) b bv
          (by rw [hlen1]; exact Nat.lt_succ_of_lt hb)
          (by rw [List.getD_append front [s] [] b hb]; exact hbv)
          (by
            intro j hj
            rw [hlen1] at hj
            rcases Nat.lt_succ_iff_lt_or_eq.mp hj with hj' | hj'
            · rw [List.getD_append front [s] [] j hj']
              exact hmax j hj'
            · rw [hj', List.getD_append_right front [s] [] front.length (le_refl _)]
              simpa using hle)
          (by
            intro j hj
            rw [List.getD_append front [s] [] j (lt_trans hj hb)]
            exact hfirst j hj)
        rw [hassoc] at hres
        exact hres

theorem argmaxSim_spec (q : Vec) (S : List Vec) (hS : S ≠ []) :
    argmaxSim q S < S.length ∧
    (∀ j, j < S.length →
      cosineSim q (S.getD j []) ≤ cosineSim q (S.getD (argmaxSim q S) [])) ∧
    (∀ j, j < argmaxSim q S →
      cosineSim q (S.getD j []) < cosineSim q (S.getD (argmaxSim q S) [])) := by
  match S with
  | [] => exact absurd rfl hS
  | s :: rest =>
      have hres := argmaxAux_spec q rest [s] 0 s
        (by simp)
        (by simp)
        (by
          intro j hj
          have hj0 : j = 0 := Nat.lt_one_iff.mp (by simpa using hj)
          subst hj0
          simp)
        (by intro j hj; exact absurd hj (Nat.not_lt_zero j))
      rw [List.singleton_append] at hres
      have hcount : ([s] : List Vec).length = 1 := rfl
      rw [hcount] at hres
      have heq : argmaxSim q (s :: rest) = (argmaxAux q rest (0, s) 1).1 := rfl
      refine ⟨by rw [heq]; exact hres.1, ?_, ?_⟩
      · intro j hj
        rw [heq, hres.2.1]
        exact hres.2.2.1 j hj
      · intro j hj
        rw [heq, hres.2.1]
        exact hres.2.2.2 j (by rwa [heq] at hj)

/-! Value-level facts about the similarity: it never exceeds 1, a nonzero
vector has similarity 1 with itself, the guarded formula agrees with the
unguarded spec formula away from zero norms, and a zero-norm query gives
similarity 0 against everything. -/

theorem cosineSim_le_one (q s : Vec) : cosineSim q s ≤ 1 := by
  by_cases hq : sqNorm q = 0
  · unfold cosineSim
    rw [dotQ_eq_zero_of_sqNorm_eq_zero hq s]
    simp
  · by_cases hs : sqNorm s = 0
    · unfold cosineSim
      rw [dotQ_comm, dotQ_eq_zero_of_sqNorm_eq_zero hs q]
      simp
    · unfold cosineSim gnormR
      rw [if_neg hq, if_neg hs]
      rw [div_le_one (mul_pos
        (Real.sqrt_pos.mpr (by exact_mod_cast lt_of_le_of_ne (sqNorm_nonneg q) (Ne.symm hq)))
        (Real.sqrt_pos.mpr (by exact_mod_cast lt_of_le_of_ne (sqNorm_nonneg s) (Ne.symm hs))))]
      rcases le_or_lt (dotQ q s) 0 with hd | hd
      · have hd' : (dotQ q s : ℝ) ≤ 0 := by exact_mod_cast hd
        have : (0 : ℝ) ≤ Real.sqrt ((sqNorm q : ℝ)) * Real.sqrt ((sqNorm s : ℝ)) :=
          mul_nonneg (Real.sqrt_nonneg _) (Real.sqrt_nonneg _)
        linarith
      · have hcs : (dotQ q s : ℝ) ^ 2 ≤ (sqNorm q : ℝ) * (sqNorm s : ℝ) := by
          exact_mod_cast dotQ_sq_le q s
        have hd' : (0 : ℝ) ≤ (dotQ q s : ℝ) := by positivity
        calc (dotQ q s : ℝ) = Real.sqrt ((dotQ q s : ℝ) ^ 2) := (Real.sqrt_sq hd').symm
        _ ≤ Real.sqrt ((sqNorm q : ℝ) * (sqNorm s : ℝ)) := Real.sqrt_le_sqrt hcs
        _ = Real.sqrt ((sqNorm q : ℝ)) * Real.sqrt ((sqNorm s : ℝ)) :=
            Real.sqrt_mul (by exact_mod_cast sqNorm_nonneg q) _

theorem cosineSim_self (q : Vec) (hq : sqNorm q ≠ 0) : cosineSim q q = 1 := by
  unfold cosineSim gnormR
  rw [if_neg hq]
  rw [show dotQ q q = sqNorm q from rfl]
  rw [Real.mul_self_sqrt (by exact_mod_cast sqNorm_nonneg q)]
  exact div_self (by
    have : (0 : ℚ) < sqNorm q := lt_of_le_of_ne (sqNorm_nonneg q) (Ne.symm hq)
    exact_mod_cast ne_of_gt this)

theorem cosineSim_eq_spec (q s : Vec) (hq : sqNorm q ≠ 0) (hs : sqNorm s ≠ 0) :
    cosineSim q s = cosineSimSpec q s := by
  unfold cosineSim cosineSimSpec gnormR
  rw [if_neg hq, if_neg hs]

theorem cosineSim_zero_query {q : Vec} (hq : sqNorm q = 0) (s : Vec) :
    cosineSim q s = 0 := by
  unfold cosineSim
  rw [dotQ_eq_zero_of_sqNorm_eq_zero hq s]
  simp

theorem simGt_zero_query {q : Vec} (hq : sqNorm q = 0) (s w : Vec) :
    simGt q s w = false := by
  unfold simGt
  rw [dotQ_eq_zero_of_sqNorm_eq_zero hq s, dotQ_eq_zero_of_sqNorm_eq_zero hq w]
  simp

theorem argmaxAux_id (q : Vec) (h : ∀ s w, simGt q s w = false) :
    ∀ (L : List Vec) (best : Nat × Vec) (k : Nat), argmaxAux q L best k = best := by
  intro L
  induction L with
  | nil => intro best k; rfl
  | cons s rest ih => intro best k; simp [argmaxAux, h, ih]

theorem argmaxSim_zero_query {q : Vec} (hq : sqNorm q = 0) (S : List Vec) :
    argmaxSim q S = 0 := by
  cases S with
  | nil => rfl
  | cons s rest =>
      show (argmaxAux q rest (0, s) 1).1 = 0
      rw [argmaxAux_id q (simGt_zero_query hq) rest (0, s) 1]

/-! Scale invariance of the similarity, and invariance of the argmax under
lists whose entries have pairwise equal similarities. -/

theorem gnormR_smul {c : ℚ} (hc : 0 < c) {v : Vec} (hv : sqNorm v ≠ 0) :
    gnormR (smulQ c v) = (c : ℝ) * gnormR v := by
  have hv' : sqNorm (smulQ c v) ≠ 0 := by
    rw [sqNorm_smul]
    exact mul_ne_zero (pow_ne_zero 2 (ne_of_gt hc)) hv
  unfold gnormR
  rw [if_neg hv, if_neg hv', sqNorm_smul]
  push_cast
  rw [Real.sqrt_mul (by positivity) ((sqNorm v : ℝ))]
  rw [Real.sqrt_sq (by exact_mod_cast hc.le)]

theorem cosineSim_smul_right (q : Vec) {c : ℚ} (hc : 0 < c) (v : Vec) :
    cosineSim q (smulQ c v) = cosineSim q v := by
  by_cases hv : sqNorm v = 0
  · have h1 : dotQ q v = 0 := by
      rw [dotQ_comm]
      exact dotQ_eq_zero_of_sqNorm_eq_zero hv q
    unfold cosineSim
    rw [dotQ_smul_right, h1]
    simp
  · unfold cosineSim
    rw [dotQ_smul_right, gnormR_smul hc hv]
    have hc' : (c : ℝ) ≠ 0 := by exact_mod_cast ne_of_gt hc
    push_cast
    rw [show gnormR q * ((c : ℝ) * gnormR v) = (c : ℝ) * (gnormR q * gnormR v) by ring]
    exact mul_div_mul_left _ _ hc'

theorem argmaxAux_congr (q : Vec) :
    ∀ (L L' : List Vec),
      List.Forall₂ (fun u u' => cosineSim q u = cosineSim q u') L L' →
      ∀ (b k : Nat) (bv bv' : Vec), cosineSim q bv = cosineSim q bv' →
      (argmaxAux q L (b, bv) k).1 = (argmaxAux q L' (b, bv') k).1 := by
  intro L L' hall
  induction hall with
  | nil => intro b k bv bv' hbv; rfl
  | @cons s s' as bs h1 _h2 ih =>
      intro b k bv bv' hbv
      have hiff : (simGt q s bv = true) ↔ (simGt q s' bv' = true) := by
        rw [simGt_iff, simGt_iff, hbv, h1]
      have heq : simGt q s bv = simGt q s' bv' := by
        cases hb : simGt q s bv <;> cases hb' : simGt q s' bv' <;> simp_all
      show (argmaxAux q as (if simGt q s bv then (k, s) else (b, bv)) (k + 1)).1 =
        (argmaxAux q bs (if simGt q s' bv' then (k, s') else (b, bv')) (k + 1)).1
      rw [heq]
      by_cases hg : simGt q s' bv' = true
      · rw [if_pos hg, if_pos hg]
        exact ih k (k + 1) s s' h1
      · rw [if_neg hg, if_neg hg]
        exact ih b (k + 1) bv bv' hbv

theorem argmaxSim_congr (q : Vec) (S S' : List Vec)
    (h : List.Forall₂ (fun u u' => cosineSim q u = cosineSim q u') S S') :
    argmaxSim q S = argmaxSim q S' := by
  cases h with
  | nil => rfl
  | @cons s s' rest rest' h1 h2 =>
      exact argmaxAux_congr q rest rest' h2 0 1 s s' h1

theorem forall2_refl {R : Vec → Vec → Prop} (h : ∀ v, R v v) :
    ∀ (S : List Vec), List.Forall₂ R S S := by
  intro S
  induction S with
  | nil => exact List.Forall₂.nil
  | cons s rest ih => exact List.Forall₂.cons (h s) ih

theorem forall2_set {R : Vec → Vec → Prop} (hrefl : ∀ v, R v v) :
    ∀ (S : List Vec) (i : Nat) (x : Vec),
      (i < S.length → R x (S.getD i [])) →
      List.Forall₂ R (S.set i x) S := by
  intro S
  induction S with
  | nil => intro i x _; exact List.Forall₂.nil
  | cons s rest ih =>
      intro i x hx
      cases i with
      | zero =>
          refine List.Forall₂.cons ?_ (forall2_refl hrefl rest)
          have := hx (by simp)
          simpa using this
      | succ i =>
          refine List.Forall₂.cons (hrefl s) ?_
          refine ih i x ?_
          intro hi
          have := hx (by simpa using Nat.succ_lt_succ hi)
          simpa using this

/-! Concrete data used to evaluate the handlers on closed inputs. -/

/-- A small concrete server state: a pure stand-in encoder and a two-class
support set with matching labels. -/
def demoState : ServerState :=
  { model := fun t => [dotQ t t + 1, 1]
    support_embeddings := [[1, 0], [0, 1]]
    support_labels := ["cataract", "healthy"] }

/-- A concrete server state whose encoder collapses every input to the zero
embedding, exhibiting the zero-norm query edge case. -/
def zeroState : ServerState :=
  { model := fun _ => [0, 0]
    support_embeddings := [[1, 0], [0, 1]]
    support_labels := ["cataract", "healthy"] }

/-- A concrete valid upload: a 1 x 1 image with one RGB pixel. -/
def demoBytes : List Nat := [1, 1, 10, 20, 30]

/-- The image `demoBytes` decodes to. -/
def demoImg : ImageRGB := ⟨1, 1, [10, 20, 30]⟩

/-- Concrete query and support set on which the classifier is evaluated. -/
def q1 : Vec := [1, 0]

/-- Support set for the `q1` evaluations. -/
def S1 : List Vec := [[0, 1], [1, 1]]

/-- Query for the tie-break counterexample: equal to entry 1 of `S3`. -/
def q3 : Vec := [1]

/-- Support set whose entry 0 is a positive multiple of entry 1, so both
have similarity 1 with `q3`. -/
def S3 : List Vec := [[2], [1]]

/-! Claim theorems. -/

/-- C1: for every query embedding and every nonempty support set, all of
nonzero norm (where the unguarded formula of the spec is defined), the
classifier computes the cosine similarity
sim(q, s_i) = (q . s_i) / (norm q * norm s_i) against each of the N support
embeddings and returns the index of the maximum similarity, ties broken by
the lowest index (first occurrence). -/
theorem C1_cosine_argmax (q : Vec) (S : List Vec) (hS : S ≠ [])
    (hq : sqNorm q ≠ 0) (hsupp : ∀ s ∈ S, sqNorm s ≠ 0) :
    argmaxSim q S < S.length ∧
    (∀ j, j < S.length →
      cosineSimSpec q (S.getD j []) ≤ cosineSimSpec q (S.getD (argmaxSim q S) [])) ∧
    (∀ j, j < argmaxSim q S →
      cosineSimSpec q (S.getD j []) < cosineSimSpec q (S.getD (argmaxSim q S) [])) := by
  obtain ⟨h1, h2, h3⟩ := argmaxSim_spec q S hS
  have hmem : ∀ j, j < S.length → sqNorm (S.getD j []) ≠ 0 := by
    intro j hj
    refine hsupp _ ?_
    rw [List.getD_eq_getElem _ _ hj]
    exact List.getElem_mem hj
  refine ⟨h1, ?_, ?_⟩
  · intro j hj
    rw [← cosineSim_eq_spec q _ hq (hmem j hj),
      ← cosineSim_eq_spec q _ hq (hmem _ h1)]
    exact h2 j hj
  · intro j hj
    rw [← cosineSim_eq_spec q _ hq (hmem j (lt_trans hj h1)),
      ← cosineSim_eq_spec q _ hq (hmem _ h1)]
    exact h3 j hj

/-- Witness for C1 at the concrete query `q1` and support set `S1`. -/
theorem C1_cosine_argmax_witness :
    (S1 ≠ [] ∧ sqNorm q1 ≠ 0 ∧ ∀ s ∈ S1, sqNorm s ≠ 0) ∧
    (argmaxSim q1 S1 < S1.length ∧
    (∀ j, j < S1.length →
      cosineSimSpec q1 (S1.getD j []) ≤ cosineSimSpec q1 (S1.getD (argmaxSim q1 S1) [])) ∧
    (∀ j, j < argmaxSim q1 S1 →
      cosineSimSpec q1 (S1.getD j []) < cosineSimSpec q1 (S1.getD (argmaxSim q1 S1) []))) :=
  ⟨⟨by decide, by norm_num [q1, sqNorm, dotQ],
      by norm_num [S1, sqNorm, dotQ, List.forall_mem_cons]⟩,
    C1_cosine_argmax q1 S1 (by decide) (by norm_num [q1, sqNorm, dotQ])
      (by norm_num [S1, sqNorm, dotQ, List.forall_mem_cons])⟩

/-- C2: for every valid image upload (bytes that decode), on a server state
with a nonempty support set whose label list has one label per support
entry, the handler returns a predicted class id in [0, N) and the
label-list entry at exactly that index. -/
theorem C2_response_in_range (st : ServerState) (bytes : List Nat) (img : ImageRGB)
    (hdec : decodeImage bytes = some img)
    (hne : st.support_embeddings ≠ [])
    (hlab : st.support_labels.length = st.support_embeddings.length) :
    ∃ cid lbl, (Backend.predict st bytes).1 = Except.ok ⟨cid, lbl⟩ ∧
      cid < st.support_embeddings.length ∧
      st.support_labels.get? cid = some lbl := by
  obtain ⟨s0, rest, hSE⟩ := List.exists_cons_of_ne_nil hne
  have hlt : argmaxSim (st.model (transform img)) (s0 :: rest) < (s0 :: rest).length :=
    (argmaxSim_spec _ _ (List.cons_ne_nil s0 rest)).1
  have hlt' : argmaxSim (st.model (transform img)) (s0 :: rest) < st.support_labels.length := by
    rw [hlab, hSE]
    exact hlt
  have hget := List.get?_eq_get hlt'
  refine ⟨argmaxSim (st.model (transform img)) (s0 :: rest),
    st.support_labels.get ⟨_, hlt'⟩, ?_, ?_, hget⟩
  · unfold Backend.predict
    rw [hdec]
    simp only [hSE, hget]
  · rw [hSE]
    exact hlt

/-- Witness for C2 at the concrete state `demoState` and upload `demoBytes`. -/
theorem C2_response_in_range_witness :
    (decodeImage demoBytes = some demoImg ∧
      demoState.support_embeddings ≠ [] ∧
      demoState.support_labels.length = demoState.support_embeddings.length) ∧
    (∃ cid lbl, (Backend.predict demoState demoBytes).1 = Except.ok ⟨cid, lbl⟩ ∧
      cid < demoState.support_embeddings.length ∧
      demoState.support_labels.get? cid = some lbl) :=
  ⟨⟨by decide, by decide, by decide⟩,
    C2_response_in_range demoState demoBytes demoImg (by decide) (by decide) (by decide)⟩

/-- C3 counterexample: the query `q3` is identical to support embedding 1 of
`S3` and both are nonzero, yet the classifier does not return index 1: entry
0 points in the same direction, so the similarity row ties at 1.0 and the
arg-max picks the lower index 0. -/
theorem C3_counterexample :
    S3.getD 1 [] = q3 ∧ sqNorm q3 ≠ 0 ∧ 1 < S3.length ∧ argmaxSim q3 S3 ≠ 1 := by
  refine ⟨by decide, by norm_num [q3, sqNorm, dotQ], by decide,
    by norm_num [q3, S3, argmaxSim, argmaxAux, simGt, dotQ, gSq, sqNorm]⟩

/-- C3 amended: if the query embedding is identical to support embedding i
(both nonzero), the classifier returns an index j ≤ i whose similarity is
exactly 1.0 — the first occurrence of the maximal similarity, which equals i
itself whenever no earlier support embedding also has similarity 1.0 with
the query. -/
theorem C3_self_similarity (q : Vec) (S : List Vec) (i : Nat)
    (hi : i < S.length) (hqi : S.getD i [] = q) (hq : sqNorm q ≠ 0) :
    argmaxSim q S ≤ i ∧ cosineSim q (S.getD (argmaxSim q S) []) = 1 := by
  have hS : S ≠ [] := by
    intro h
    rw [h] at hi
    exact absurd hi (by simp)
  obtain ⟨h1, h2, h3⟩ := argmaxSim_spec q S hS
  have hsimi : cosineSim q (S.getD i []) = 1 := by
    rw [hqi]
    exact cosineSim_self q hq
  have hge : (1 : ℝ) ≤ cosineSim q (S.getD (argmaxSim q S) []) := by
    rw [← hsimi]
    exact h2 i hi
  have hle := cosineSim_le_one q (S.getD (argmaxSim q S) [])
  refine ⟨?_, le_antisymm hle hge⟩
  by_contra hcon
  have hlt := h3 i (not_le.mp hcon)
  rw [hsimi] at hlt
  linarith

/-- Witness for the amended C3 at the concrete query `q3`, support `S3`, index 1. -/
theorem C3_self_similarity_witness :
    (1 < S3.length ∧ S3.getD 1 [] = q3 ∧ sqNorm q3 ≠ 0) ∧
    (argmaxSim q3 S3 ≤ 1 ∧ cosineSim q3 (S3.getD (argmaxSim q3 S3) []) = 1) :=
  ⟨⟨by decide, by decide, by norm_num [q3, sqNorm, dotQ]⟩,
    C3_self_similarity q3 S3 1 (by decide) (by decide) (by norm_num [q3, sqNorm, dotQ])⟩

/-- C4: scaling any support embedding by a positive constant does not change
the arg-max index returned by the classifier: cosine similarity is
scale-invariant. -/
theorem C4_scale_invariant (q : Vec) (S : List Vec) (i : Nat) (c : ℚ)
    (hc : 0 < c) :
    argmaxSim q (S.set i (smulQ c (S.getD i []))) = argmaxSim q S := by
  apply argmaxSim_congr
  apply forall2_set (R := fun u u' => cosineSim q u = cosineSim q u') (fun _ => rfl)
  intro _hi
  exact cosineSim_smul_right q hc (S.getD i [])

/-- Witness for C4: doubling support entry 0 of `S1` leaves the arg-max
index for query `q1` unchanged. -/
theorem C4_scale_invariant_witness :
    (0 : ℚ) < 2 ∧
    argmaxSim q1 (S1.set 0 (smulQ 2 (S1.getD 0 []))) = argmaxSim q1 S1 :=
  ⟨by norm_num, C4_scale_invariant q1 S1 0 2 (by norm_num)⟩

/-- C5: what `backend.py` actually does on a malformed upload: the handler
wraps `Image.open` in no try/except, so the decode failure escapes the
handler as the PIL exception instead of being converted to a structured
decode-error response at the request boundary. -/
theorem C5_decode_error_escapes (st : ServerState) (bytes : List Nat)
    (hbad : decodeImage bytes = none) :
    (Backend.predict st bytes).1 = Except.error PyError.unidentifiedImage := by
  unfold Backend.predict
  rw [hbad]

/-- Witness for C5 at the empty upload. -/
theorem C5_decode_error_escapes_witness :
    decodeImage [] = none ∧
    (Backend.predict demoState []).1 = Except.error PyError.unidentifiedImage :=
  ⟨rfl, C5_decode_error_escapes demoState [] rfl⟩

/-- C6: for every class index with no entry in the static tables, the
metadata lookups return the documented defaults: `get_diagnosis_text`
returns "Unknown condition" and `get_recommendations` returns the empty
list. -/
theorem C6_metadata_defaults (class_idx : Nat)
    (hd : AppMain.diagnoses.lookup class_idx = none)
    (hr : AppMain.recommendations.lookup class_idx = none) :
    AppMain.get_diagnosis_text class_idx = "Unknown condition" ∧
    AppMain.get_recommendations class_idx = [] := by
  unfold AppMain.get_diagnosis_text AppMain.get_recommendations
  rw [hd, hr]
  exact ⟨rfl, rfl⟩

/-- Witness for C6 at class index 7, which has no entry in either table. -/
theorem C6_metadata_defaults_witness :
    (AppMain.diagnoses.lookup 7 = none ∧ AppMain.recommendations.lookup 7 = none) ∧
    (AppMain.get_diagnosis_text 7 = "Unknown condition" ∧
      AppMain.get_recommendations 7 = []) :=
  ⟨⟨rfl, rfl⟩, C6_metadata_defaults 7 rfl rfl⟩

/-- C7: the image preprocessor is deterministic and stateless: two runs of
the pipeline (decode to RGB, resize to 224 x 224, convert to tensor) on
identical input bytes produce identical input tensors.  In this embedding
the pipeline is a pure function of the bytes — it reads no request or
process state — so the two runs agree. -/
theorem C7_preprocessor_deterministic (b1 b2 : List Nat) (h : b1 = b2) :
    (decodeImage b1).map transform = (decodeImage b2).map transform := by
  rw [h]

/-- Witness for C7 at the concrete upload `demoBytes`. -/
theorem C7_preprocessor_deterministic_witness :
    demoBytes = demoBytes ∧
    (decodeImage demoBytes).map transform = (decodeImage demoBytes).map transform :=
  ⟨rfl, C7_preprocessor_deterministic demoBytes demoBytes rfl⟩

/-- C8: the support set (embeddings and labels) is immutable across request
handling: the `/predict/` handler never assigns the process-wide state, so
handling any request returns the shared state unchanged, in every branch
(decode failure, empty support, label indexing failure, success). -/
theorem C8_state_immutable (st : ServerState) (bytes : List Nat) :
    (Backend.predict st bytes).2 = st ∧
    (Backend.predict st bytes).2.support_embeddings = st.support_embeddings ∧
    (Backend.predict st bytes).2.support_labels = st.support_labels := by
  have h : (Backend.predict st bytes).2 = st := by
    unfold Backend.predict
    split
    · rfl
    · split
      · rfl
      · dsimp only
        split
        · rfl
        · rfl
  exact ⟨h, by rw [h], by rw [h]⟩

/-- C9: a zero-norm query embedding neither crashes nor rejects the request:
the guarded cosine-similarity routine yields score 0.0 for every support
entry, so the first-occurrence arg-max of the all-zero score row is 0 and
the handler returns class id 0 with the label at index 0. -/
theorem C9_zero_norm_query (st : ServerState) (bytes : List Nat) (img : ImageRGB)
    (hdec : decodeImage bytes = some img)
    (hzero : sqNorm (st.model (transform img)) = 0)
    (s0 : Vec) (rest : List Vec) (hSE : st.support_embeddings = s0 :: rest)
    (l0 : String) (hl0 : st.support_labels.get? 0 = some l0) :
    (Backend.predict st bytes).1 = Except.ok ⟨0, l0⟩ ∧
    ∀ s ∈ st.support_embeddings, cosineSim (st.model (transform img)) s = 0 := by
  constructor
  · unfold Backend.predict
    rw [hdec]
    have hargmax : argmaxSim (st.model (transform img)) (s0 :: rest) = 0 :=
      argmaxSim_zero_query hzero _
    simp only [hSE, hargmax, hl0]
  · intro s _
    exact cosineSim_zero_query hzero s

/-- Witness for C9 at the zero-collapsing encoder state `zeroState` and the
concrete upload `demoBytes`. -/
theorem C9_zero_norm_query_witness :
    (decodeImage demoBytes = some demoImg ∧
      sqNorm (zeroState.model (transform demoImg)) = 0 ∧
      zeroState.support_embeddings = [[1, 0], [0, 1]] ∧
      zeroState.support_labels.get? 0 = some "cataract") ∧
    ((Backend.predict zeroState demoBytes).1 = Except.ok ⟨0, "cataract"⟩ ∧
      ∀ s ∈ zeroState.support_embeddings,
        cosineSim (zeroState.model (transform demoImg)) s = 0) :=
  ⟨⟨by decide, by norm_num [zeroState, sqNorm, dotQ], rfl, rfl⟩,
    C9_zero_norm_query zeroState demoBytes demoImg (by decide)
      (by norm_num [zeroState, sqNorm, dotQ]) [1, 0] [[0, 1]] rfl "cataract" rfl⟩

/-- C10 counterexample: on a request whose bytes do not decode (the empty
upload), the `app/main.py` handler raises the image-decode error before ever
reaching `image_tensor`, so "every request raises an uncaught NameError"
fails as stated. -/
theorem C10_counterexample :
    AppMain.predict [] = Except.error PyError.unidentifiedImage ∧
    Except.error PyError.unidentifiedImage ≠
      (Except.error (PyError.nameError "image_tensor") :
        Except PyError AppMain.AppPrediction) := by
  constructor
  · rfl
  · intro h
    injection h with h2
    exact PyError.noConfusion h2

/-- C10 amended: the `/predict/` handler of `app/main.py` never produces a
response — every request fails with an uncaught exception before the
response is assembled, so the rich success payload is unreachable for every
input; and every request whose bytes decode successfully raises the
NameError on the never-assigned `image_tensor`. -/
theorem C10_name_error (bytes : List Nat) :
    (∀ r, AppMain.predict bytes ≠ Except.ok r) ∧
    (∀ img, decodeImage bytes = some img →
      AppMain.predict bytes = Except.error (PyError.nameError "image_tensor")) := by
  constructor
  · intro r h
    unfold AppMain.predict at h
    cases hdec : decodeImage bytes <;> rw [hdec] at h <;> exact Except.noConfusion h
  · intro img hdec
    unfold AppMain.predict
    rw [hdec]

/-- Witness for the amended C10 at the concrete decodable upload `demoBytes`. -/
theorem C10_name_error_witness :
    decodeImage demoBytes = some demoImg ∧
    AppMain.predict demoBytes = Except.error (PyError.nameError "image_tensor") :=
  ⟨by decide, (C10_name_error demoBytes).2 demoImg (by decide)⟩

end Iris
